import Mathlib

/-!
Shallow embedding of `src/lib-storage/index/mbox/mbox-storage.c` (the mbox
storage backend's naming, path-resolution, lifecycle and locking layer),
together with theorems settling the frozen claims about it.

Filesystem syscalls and the index subsystem are external collaborators of the
translated file; they are modelled by an explicit syscall interface `Sys`
threaded through the lifecycle functions.  Two instantiations are used:
a free oracle tape (every per-call outcome is possible, so theorems over all
tapes cover every execution of the translated code) and an idealised
filesystem map (used for claims about two consecutive operations).
-/

namespace Mbox

/-- OS failure codes that the translated code distinguishes.  `EOTHER` stands for
any code the code under test treats as unclassified. -/
inductive Errno
  | ENOENT | ENOTDIR | ELOOP | EACCES | EEXIST | ENOTEMPTY | ENOSPC | EOTHER
deriving DecidableEq, Fintype

/-- Modelled from the spec: the ENOTFOUND errno-class macro of lib.h (missing
from src/).  Spec 4.6 describes the class as "a component of the path does not
exist / is not a directory". -/
def ENOTFOUND (e : Errno) : Bool := e = .ENOENT || e = .ENOTDIR

/-- Modelled from the spec: the ENOACCESS errno-class macro of lib.h (missing
from src/); the spec calls it the permission-denied code. -/
def ENOACCESS (e : Errno) : Bool := e = .EACCES

/-- Modelled from the spec: the ENOSPACE errno-class macro of lib.h (missing
from src/); the spec calls it the out-of-space code. -/
def ENOSPACE (e : Errno) : Bool := e = .ENOSPC

/-- What a (l)stat call reports about an existing node: directory or not
(the code only ever tests `S_ISDIR`). -/
inductive StatKind
  | dirK | fileK
deriving DecidableEq

/-- User-visible errors set through `mail_storage_set_error`, one constructor
per distinct message in the source. -/
inductive MErr
  | permissionDenied        -- "Permission denied"
  | noSpace                 -- "Not enough disk space"
  | dirStructBroken         -- "Directory structure is broken"
  | invalidName             -- "Invalid mailbox name"
  | alreadyExists           -- "Mailbox already exists"
  | noInferiors             -- "Mailbox doesn't allow inferior mailboxes"
  | doesNotExist (name : String)    -- "Mailbox doesn't exist: %s"
  | inboxCantBeDeleted      -- "INBOX can't be deleted."
  | notEmpty (name : String)        -- "Folder %s isn't empty, can't delete it."
  | targetAlreadyExists     -- "Target mailbox already exists"
  | notSelectable (name : String)   -- "Mailbox isn't selectable: %s"
deriving DecidableEq

/-- The storage handle's error slot: a user-visible error or a critical error
set through `mail_storage_set_critical` (tagged by the failing call). -/
inductive StorageErr
  | user (m : MErr)
  | critical (fn : String)
deriving DecidableEq

/-- mbox_handle_errors: classify errno into a user error, or report FALSE
("unhandled", here `none`) so the caller escalates to a critical error. -/
def mbox_handle_errors (e : Errno) : Option MErr :=
  if ENOACCESS e then some .permissionDenied
  else if ENOSPACE e then some .noSpace
  else if ENOTFOUND e then some .dirStructBroken
  else none

/-- The storage handle fields the translated functions read
(`storage->dir`, `->inbox_file`, `->index_dir`, `->hierarchy_sep`). -/
structure Storage where
  dir : String
  inbox_file : String
  index_dir : Option String
  hierarchy_sep : Char
deriving DecidableEq

/-! ### Character/string helpers mirroring the C string idioms -/

/-- ASCII tolower, as strcasecmp uses in the C locale. -/
def lowerA (c : Char) : Char :=
  if 'A' ≤ c && c ≤ 'Z' then Char.ofNat (c.toNat + 32) else c

/-- strcasecmp(a, b) == 0. -/
def strcaseEq (a b : String) : Bool :=
  a.data.map lowerA = b.data.map lowerA

/-- Is the character one of the two directory separators the validator
recognises. -/
def sepChar (c : Char) : Bool := c = '/' || c = '\\'

/-- strrchr(s, slash): split a character list at its LAST slash, returning
(characters before it, characters after it); `none` when there is no slash. -/
def lastSplit : List Char → Option (List Char × List Char)
  | [] => none
  | c :: rest =>
    match lastSplit rest with
    | some (pre, post) => some (c :: pre, post)
    | none => if c = '/' then some ([], rest) else none

/-- Does `*name == slash || *name == tilde` hold (the absolute/home test of
mbox_get_path and mbox_get_index_dir). -/
def headAbsHome (name : String) : Bool :=
  match name.data with
  | c :: _ => c = '/' || c = '~'
  | [] => false

/-! ### mbox_is_valid_mask and the two derived validators -/

/-- The look-ahead of the mask-scanning loop: do the next two characters after
the current one read ".." directly followed by a separator?  (C reads
`p[1] == '.' && (p[2] == slash-or-backslash)`.) -/
def dotSepAfter : List Char → Bool
  | c1 :: c2 :: _ => c1 = '.' && sepChar c2
  | _ => false

/-- The scanning loop of mbox_is_valid_mask: walk the mask, `newdir` true at
the start of each path segment; reject when a segment starts with ".."
directly followed by a separator. -/
def validMaskLoop : List Char → Bool → Bool
  | [], _ => true
  | c :: rest, newdir =>
    if newdir && c = '.' && dotSepAfter rest then false
    else validMaskLoop rest (sepChar c)

/-- Does the first character make the mask an absolute/home/backslash path
(`*mask == '/' || *mask == '\\' || *mask == '~'`). -/
def startsAbsChar (mask : String) : Bool :=
  match mask.data with
  | c :: _ => c = '/' || c = '\\' || c = '~'
  | [] => false

/-- mbox_is_valid_mask, with the process-wide full_filesystem_access flag made
an explicit parameter. -/
def mbox_is_valid_mask (ffa : Bool) (mask : String) : Bool :=
  if ffa then true
  else if startsAbsChar mask then false
  else validMaskLoop mask.data true

/-- mbox_is_valid_create_name: additionally reject the empty name, names
ending in the hierarchy separator, and names holding a listing wildcard. -/
def mbox_is_valid_create_name (ffa : Bool) (st : Storage) (name : String) : Bool :=
  match name.data with
  | [] => false
  | _ =>
    if name.data.getLast? = some st.hierarchy_sep
        || name.data.contains '*' || name.data.contains '%' then false
    else mbox_is_valid_mask ffa name

/-- mbox_is_valid_existing_name: additionally reject only the empty name. -/
def mbox_is_valid_existing_name (ffa : Bool) (name : String) : Bool :=
  match name.data with
  | [] => false
  | _ => mbox_is_valid_mask ffa name

/-! ### Specification-side characterisations of the mask rule (used only to
compare with the translated validator, never called by the embedding) -/

/-- All suffixes of the list that start a path segment, given whether the list
itself starts one (the positions the scanning loop tests with `newdir`). -/
def segStartSuffixes : Bool → List Char → List (List Char)
  | _, [] => []
  | nd, c :: rest =>
    (if nd then [c :: rest] else []) ++ segStartSuffixes (sepChar c) rest

/-- Does this suffix begin with a ".." segment directly followed by a
separator. -/
def startsDotDotSep : List Char → Bool
  | c0 :: c1 :: c2 :: _ => c0 = '.' && c1 = '.' && sepChar c2
  | _ => false

/-- Does this suffix begin with a ".." segment followed by a separator OR by
end-of-string (the reading the claim gives of the rule). -/
def startsDotDotSepOrEnd : List Char → Bool
  | [c0, c1] => c0 = '.' && c1 = '.'
  | c0 :: c1 :: c2 :: _ => c0 = '.' && c1 = '.' && sepChar c2
  | _ => false

/-- Does the mask contain a ".." path segment directly followed by a
separator. -/
def hasTraversalSeg (cs : List Char) : Bool :=
  (segStartSuffixes true cs).any startsDotDotSep

/-- The claim's reading of the name validator: reject absolute/home prefixes,
and reject a ".." segment followed by a separator or by end-of-string. -/
def spec_is_valid_mask (ffa : Bool) (mask : String) : Bool :=
  if ffa then true
  else if startsAbsChar mask then false
  else !((segStartSuffixes true mask.data).any startsDotDotSepOrEnd)

/-! ### Path resolution -/

/-- mbox_get_path.  `he` stands for the external home_expand collaborator. -/
def mbox_get_path (he : String → String) (ffa : Bool) (st : Storage)
    (name : String) : String :=
  if strcaseEq name "INBOX" then st.inbox_file
  else if ffa && headAbsHome name then he name
  else st.dir ++ "/" ++ name

/-- mbox_get_index_dir.  When the handle has no index directory the result is
`none`.  In the full-filesystem-access absolute/home branch the C code
dereferences `strrchr(name, slash) + 1`; a home-expanded absolute path always
holds a slash, so the `none` branch of that match is unreachable in the
original program. -/
def mbox_get_index_dir (he : String → String) (ffa : Bool) (st : Storage)
    (name : String) : Option String :=
  match st.index_dir with
  | none => none
  | some idir =>
    if ffa && headAbsHome name then
      match lastSplit (he name).data with
      | some (pre, post) =>
        some (String.mk pre ++ "/.imap/" ++ String.mk post)
      | none => none
    else
      match lastSplit name.data with
      | none => some (idir ++ "/.imap/" ++ name)
      | some (pre, post) =>
        some (idir ++ "/" ++ String.mk pre ++ "/.imap/" ++ String.mk post)

/-! ### The syscall interface, the oracle tape and the idealised filesystem -/

/-- One trace entry per syscall the lifecycle functions issue, recording the
call site's arguments in issue order. -/
inductive Event
  | statE (p : String)
  | lstatE (p : String)
  | openExclE (p : String)
  | mkdirParentsE (p : String)
  | unlinkE (p : String)
  | rmdirE (p : String)
  | renameE (src dst : String)
  | unlinkDirE (p : String)
  | destroyUnrefedE
deriving DecidableEq

/-- The blocking syscalls (and external directory utilities) the translated
file consumes, over an abstract world state σ.  `Option Errno` results follow
the C convention: `none` is success, `some e` a failure with errno `e`. -/
structure Sys (σ : Type) where
  stat : String → σ → Except Errno StatKind × σ
  lstat : String → σ → Except Errno StatKind × σ
  openExcl : String → σ → Option Errno × σ
  mkdirParents : String → σ → Option Errno × σ
  unlink : String → σ → Option Errno × σ
  rmdir : String → σ → Option Errno × σ
  rename : String → String → σ → Option Errno × σ
  unlinkDirectory : String → σ → Option Errno × σ

/-- Free syscall oracle: a tape of prescribed outcomes, one per call in issue
order.  Every execution of the original code corresponds to some tape. -/
abbrev Tape := List (Except Errno StatKind)

/-- Pop the next prescribed outcome (an exhausted tape keeps succeeding). -/
def tapePop : Tape → Except Errno StatKind × Tape
  | [] => (.ok .fileK, [])
  | o :: rest => (o, rest)

/-- Pop the next outcome for a success/errno call. -/
def tapePopU (t : Tape) : Option Errno × Tape :=
  match tapePop t with
  | (.ok _, r) => (none, r)
  | (.error e, r) => (some e, r)

/-- Encode a success/errno outcome as a tape entry. -/
def encU : Option Errno → Except Errno StatKind
  | none => .ok .fileK
  | some e => .error e

/-- The oracle-tape instantiation of the syscall interface. -/
def tapeSys : Sys Tape :=
  ⟨fun _ => tapePop, fun _ => tapePop, fun _ => tapePopU, fun _ => tapePopU,
   fun _ => tapePopU, fun _ => tapePopU, fun _ _ => tapePopU, fun _ => tapePopU⟩

/-- Modelled from the spec: an idealised filesystem for sequential-composition
claims — a finite map from path strings to node kinds; parent/child is string
prefixing with "/". -/
abbrev Fs := List (String × StatKind)

/-- Look a path up in the idealised filesystem. -/
def fsGet : Fs → String → Option StatKind
  | [], _ => none
  | (q, k) :: rest, p => if q = p then some k else fsGet rest p

/-- Remove one path from the idealised filesystem. -/
def fsRemove (fs : Fs) (p : String) : Fs :=
  fs.filter (fun e => decide (e.1 ≠ p))

/-- Does the path have a child entry. -/
def fsHasChild (fs : Fs) (p : String) : Bool :=
  fs.any (fun e => (p ++ "/").data.isPrefixOf e.1.data)

/-- Split a character list at every slash. -/
def splitOnSlash : List Char → List (List Char)
  | [] => [[]]
  | c :: rest =>
    let r := splitOnSlash rest
    if c = '/' then [] :: r
    else
      match r with
      | s :: t => (c :: s) :: t
      | [] => [[c]]

/-- Join path parts with slashes. -/
def joinSlash : List String → String
  | [] => ""
  | [s] => s
  | s :: rest => s ++ "/" ++ joinSlash rest

/-- All prefixes of a path at "/" boundaries (deepest last), the directories
mkdir_parents creates. -/
def mkdirsList (p : String) : List String :=
  let parts := (splitOnSlash p.data).map String.mk
  (List.range parts.length).map (fun i => joinSlash (parts.take (i + 1)))

/-- Create each directory of the list unless present; an existing non-dir
component fails with ENOTDIR. -/
def fsMkdirs : Fs → List String → Option Errno × Fs
  | fs, [] => (none, fs)
  | fs, q :: rest =>
    match fsGet fs q with
    | some .fileK => (some .ENOTDIR, fs)
    | some .dirK => fsMkdirs fs rest
    | none => fsMkdirs ((q, .dirK) :: fs) rest

/-- The idealised-filesystem instantiation of the syscall interface
(modelled from the spec's description of the external collaborators). -/
def fsSys : Sys Fs where
  stat := fun p fs =>
    (match fsGet fs p with
     | some k => .ok k
     | none => .error .ENOENT, fs)
  lstat := fun p fs =>
    (match fsGet fs p with
     | some k => .ok k
     | none => .error .ENOENT, fs)
  openExcl := fun p fs =>
    match fsGet fs p with
    | some _ => (some .EEXIST, fs)
    | none => (none, (p, .fileK) :: fs)
  mkdirParents := fun p fs => fsMkdirs fs (mkdirsList p)
  unlink := fun p fs =>
    match fsGet fs p with
    | some .fileK => (none, fsRemove fs p)
    | some .dirK => (some .EOTHER, fs)
    | none => (some .ENOENT, fs)
  rmdir := fun p fs =>
    match fsGet fs p with
    | none => (some .ENOENT, fs)
    | some .fileK => (some .ENOTDIR, fs)
    | some .dirK =>
      if fsHasChild fs p then (some .ENOTEMPTY, fs)
      else (none, fsRemove fs p)
  rename := fun o n fs =>
    match fsGet fs o with
    | none => (some .ENOENT, fs)
    | some k => (none, (n, k) :: fsRemove fs o)
  unlinkDirectory := fun p fs =>
    match fsGet fs p with
    | none => (some .ENOENT, fs)
    | some _ =>
      (none,
       (fsRemove fs p).filter (fun e => !(p ++ "/").data.isPrefixOf e.1.data))

/-! ### Lifecycle engine -/

/-- Result of a boolean-returning lifecycle operation: the returned flag, the
handle's error slot after the call, the final world state and the syscall
trace. -/
structure Out (σ : Type) where
  ok : Bool
  err : Option StorageErr
  s : σ
  tr : List Event
deriving DecidableEq

/-- create_mbox_index_dirs: ensure the mailbox's index directory chain
exists; no persistent index means nothing to do. -/
def create_mbox_index_dirs {σ : Type} (sys : Sys σ) (he : String → String)
    (ffa : Bool) (st : Storage) (name : String) (s0 : σ) : Out σ :=
  match mbox_get_index_dir he ffa st name with
  | none => ⟨true, none, s0, []⟩
  | some idir =>
    let r := sys.mkdirParents idir s0
    match r.1 with
    | some _ => ⟨false, some (.critical "mkdir_parents"), r.2, [.mkdirParentsE idir]⟩
    | none => ⟨true, none, r.2, [.mkdirParentsE idir]⟩

/-- verify_inbox: exclusively create the inbox file, IGNORING the outcome
entirely (the fd is closed when the open succeeded, nothing else is looked
at), then ensure the INBOX index directories exist. -/
def verify_inbox {σ : Type} (sys : Sys σ) (he : String → String) (ffa : Bool)
    (st : Storage) (s0 : σ) : Out σ :=
  let r1 := sys.openExcl st.inbox_file s0
  let ci := create_mbox_index_dirs sys he ffa st "INBOX" r1.2
  ⟨ci.ok, ci.err, ci.s, .openExclE st.inbox_file :: ci.tr⟩

/-- The data a successfully opened mailbox session is bound to (the path and
index directory mbox_open passes to the index subsystem). -/
structure Session where
  path : String
  index_dir : Option String
deriving DecidableEq

/-- mbox_open: bind a session to the resolved storage path and index
directory (the index-reference bookkeeping itself is external). -/
def mbox_open (he : String → String) (ffa : Bool) (st : Storage)
    (name : String) : Session :=
  if strcaseEq name "INBOX" then
    ⟨st.inbox_file, mbox_get_index_dir he ffa st "INBOX"⟩
  else
    ⟨mbox_get_path he ffa st name, mbox_get_index_dir he ffa st name⟩

/-- Result of mbox_open_mailbox: the session (or `none` on failure), the error
slot, final state and trace. -/
structure OpenOut (σ : Type) where
  box : Option Session
  err : Option StorageErr
  s : σ
  tr : List Event
deriving DecidableEq

/-- mbox_open_mailbox. -/
def mbox_open_mailbox {σ : Type} (sys : Sys σ) (he : String → String)
    (ffa : Bool) (st : Storage) (name : String) (s0 : σ) : OpenOut σ :=
  if strcaseEq name "INBOX" then
    let vi := verify_inbox sys he ffa st s0
    if vi.ok then ⟨some (mbox_open he ffa st "INBOX"), vi.err, vi.s, vi.tr⟩
    else ⟨none, vi.err, vi.s, vi.tr⟩
  else if !mbox_is_valid_existing_name ffa name then
    ⟨none, some (.user .invalidName), s0, []⟩
  else
    let path := mbox_get_path he ffa st name
    let r := sys.stat path s0
    match r.1 with
    | .ok .dirK => ⟨none, some (.user (.notSelectable name)), r.2, [.statE path]⟩
    | .ok .fileK =>
      let ci := create_mbox_index_dirs sys he ffa st name r.2
      if ci.ok then
        ⟨some (mbox_open he ffa st name), ci.err, ci.s, .statE path :: ci.tr⟩
      else ⟨none, ci.err, ci.s, .statE path :: ci.tr⟩
    | .error e =>
      if ENOTFOUND e then
        ⟨none, some (.user (.doesNotExist name)), r.2, [.statE path]⟩
      else
        match mbox_handle_errors e with
        | some m => ⟨none, some (.user m), r.2, [.statE path]⟩
        | none => ⟨none, some (.critical "stat"), r.2, [.statE path]⟩

/-- mbox_create_mailbox. -/
def mbox_create_mailbox {σ : Type} (sys : Sys σ) (he : String → String)
    (ffa : Bool) (st : Storage) (name0 : String) (only_hierarchy : Bool)
    (s0 : σ) : Out σ :=
  let name := if strcaseEq name0 "INBOX" then "INBOX" else name0
  if !mbox_is_valid_create_name ffa st name then
    ⟨false, some (.user .invalidName), s0, []⟩
  else
    let path := mbox_get_path he ffa st name
    let r1 := sys.stat path s0
    let tr1 := [Event.statE path]
    match r1.1 with
    | .ok _ => ⟨false, some (.user .alreadyExists), r1.2, tr1⟩
    | .error e =>
      if e ≠ .ENOENT ∧ e ≠ .ELOOP ∧ e ≠ .EACCES then
        if e = .ENOTDIR then ⟨false, some (.user .noInferiors), r1.2, tr1⟩
        else ⟨false, some (.critical "stat mbox file"), r1.2, tr1⟩
      else
        -- fall-through to the exclusive create of the leaf mailbox file
        let openLeaf : σ → List Event → Out σ := fun s tr =>
          let r3 := sys.openExcl path s
          let tr3 := tr ++ [Event.openExclE path]
          match r3.1 with
          | none => ⟨true, none, r3.2, tr3⟩
          | some e3 =>
            if e3 = .EEXIST then
              -- mailbox was just created between stat() and open()
              ⟨false, some (.user .alreadyExists), r3.2, tr3⟩
            else
              match mbox_handle_errors e3 with
              | some m => ⟨false, some (.user m), r3.2, tr3⟩
              | none => ⟨false, some (.critical "create mailbox"), r3.2, tr3⟩
        let pOpt : Option String :=
          if only_hierarchy then some path
          else (lastSplit path.data).map (fun q => String.mk q.1)
        match pOpt with
        | none => openLeaf r1.2 tr1
        | some parent =>
          let r2 := sys.mkdirParents parent r1.2
          let tr2 := tr1 ++ [Event.mkdirParentsE parent]
          match r2.1 with
          | some e2 =>
            match mbox_handle_errors e2 with
            | some m => ⟨false, some (.user m), r2.2, tr2⟩
            | none => ⟨false, some (.critical "mkdir_parents"), r2.2, tr2⟩
          | none =>
            if only_hierarchy then ⟨true, none, r2.2, tr2⟩
            else openLeaf r2.2 tr2

/-- mbox_delete_mailbox. -/
def mbox_delete_mailbox {σ : Type} (sys : Sys σ) (he : String → String)
    (ffa : Bool) (st : Storage) (name : String) (s0 : σ) : Out σ :=
  if strcaseEq name "INBOX" then
    ⟨false, some (.user .inboxCantBeDeleted), s0, []⟩
  else if !mbox_is_valid_existing_name ffa name then
    ⟨false, some (.user .invalidName), s0, []⟩
  else
    let path := mbox_get_path he ffa st name
    let r1 := sys.lstat path s0
    let tr1 := [Event.lstatE path]
    match r1.1 with
    | .error e =>
      if ENOTFOUND e then ⟨false, some (.user (.doesNotExist name)), r1.2, tr1⟩
      else
        match mbox_handle_errors e with
        | some m => ⟨false, some (.user m), r1.2, tr1⟩
        | none => ⟨false, some (.critical "lstat"), r1.2, tr1⟩
    | .ok k =>
      if k = .dirK then
        -- deleting a folder: remove the .imap subdirectory first so the
        -- folder can go empty.  t_strconcat with a NULL storage->index_dir
        -- terminates its argument list at once and yields "".
        let index_dir : String :=
          match st.index_dir with
          | none => ""
          | some d => d ++ "/" ++ name ++ "/.imap"
        let r2 := sys.rmdir index_dir r1.2
        let tr2 := tr1 ++ [Event.rmdirE index_dir]
        let afterIdx : Option StorageErr → σ → List Event → Out σ :=
          fun err0 s tr =>
            let r3 := sys.rmdir path s
            let tr3 := tr ++ [Event.rmdirE path]
            match r3.1 with
            | none => ⟨true, err0, r3.2, tr3⟩
            | some e3 =>
              if ENOTFOUND e3 then
                ⟨false, some (.user (.doesNotExist name)), r3.2, tr3⟩
              else if e3 = .ENOTEMPTY then
                ⟨false, some (.user (.notEmpty name)), r3.2, tr3⟩
              else
                match mbox_handle_errors e3 with
                | some m => ⟨false, some (.user m), r3.2, tr3⟩
                | none => ⟨false, some (.critical "rmdir"), r3.2, tr3⟩
        match r2.1 with
        | none => afterIdx none r2.2 tr2
        | some e2 =>
          if ENOTFOUND e2 || e2 = .ENOTEMPTY then afterIdx none r2.2 tr2
          else
            match mbox_handle_errors e2 with
            | some m =>
              -- handled: the error is set but control falls through to the
              -- rmdir of the folder itself
              afterIdx (some (.user m)) r2.2 tr2
            | none => ⟨false, some (.critical "rmdir index"), r2.2, tr2⟩
      else
        -- a leaf mailbox: first unlink the mbox file
        let r2 := sys.unlink path r1.2
        let tr2 := tr1 ++ [Event.unlinkE path]
        match r2.1 with
        | some e2 =>
          if ENOTFOUND e2 then ⟨false, some (.user (.doesNotExist name)), r2.2, tr2⟩
          else
            match mbox_handle_errors e2 with
            | some m => ⟨false, some (.user m), r2.2, tr2⟩
            | none => ⟨false, some (.critical "unlink"), r2.2, tr2⟩
        | none =>
          -- next delete the index directory
          match mbox_get_index_dir he ffa st name with
          | none => ⟨true, none, r2.2, tr2⟩
          | some idir =>
            let tr3 := tr2 ++ [Event.destroyUnrefedE]
            let r3 := sys.unlinkDirectory idir r2.2
            let tr4 := tr3 ++ [Event.unlinkDirE idir]
            match r3.1 with
            | none => ⟨true, none, r3.2, tr4⟩
            | some e3 =>
              if e3 = .ENOENT then ⟨true, none, r3.2, tr4⟩
              else
                -- mailbox itself is deleted, so return success anyway
                ⟨true, some (.critical "unlink_directory"), r3.2, tr4⟩

/-- mbox_rename_mailbox. -/
def mbox_rename_mailbox {σ : Type} (sys : Sys σ) (he : String → String)
    (ffa : Bool) (st : Storage) (oldname0 newname : String) (s0 : σ) : Out σ :=
  if !(mbox_is_valid_existing_name ffa oldname0 &&
       mbox_is_valid_create_name ffa st newname) then
    ⟨false, some (.user .invalidName), s0, []⟩
  else
    let oldname := if strcaseEq oldname0 "INBOX" then "INBOX" else oldname0
    let oldpath := mbox_get_path he ffa st oldname
    let newpath := mbox_get_path he ffa st newname
    let doRename : σ → List Event → Out σ := fun s tr =>
      -- check that the destination doesn't exist; racy but accepted
      let r2 := sys.lstat newpath s
      let tr2 := tr ++ [Event.lstatE newpath]
      match r2.1 with
      | .ok _ => ⟨false, some (.user .targetAlreadyExists), r2.2, tr2⟩
      | .error e2 =>
        if !ENOTFOUND e2 && e2 ≠ .EACCES then
          ⟨false, some (.critical "lstat newpath"), r2.2, tr2⟩
        else
          let r3 := sys.rename oldpath newpath r2.2
          let tr3 := tr2 ++ [Event.renameE oldpath newpath]
          match r3.1 with
          | some e3 =>
            if ENOTFOUND e3 then
              ⟨false, some (.user (.doesNotExist oldname)), r3.2, tr3⟩
            else
              match mbox_handle_errors e3 with
              | some m => ⟨false, some (.user m), r3.2, tr3⟩
              | none => ⟨false, some (.critical "rename"), r3.2, tr3⟩
          | none =>
            -- rename the index directory as well; failure is critical but
            -- the operation already succeeded
            match mbox_get_index_dir he ffa st oldname with
            | none => ⟨true, none, r3.2, tr3⟩
            | some oi =>
              let ni := (mbox_get_index_dir he ffa st newname).getD ""
              let r4 := sys.rename oi ni r3.2
              let tr4 := tr3 ++ [Event.renameE oi ni]
              match r4.1 with
              | none => ⟨true, none, r4.2, tr4⟩
              | some _ => ⟨true, some (.critical "rename index"), r4.2, tr4⟩
    match lastSplit newpath.data with
    | none => doRename s0 []
    | some q =>
      let parent := String.mk q.1
      let r1 := sys.mkdirParents parent s0
      let tr1 := [Event.mkdirParentsE parent]
      match r1.1 with
      | some e1 =>
        match mbox_handle_errors e1 with
        | some m => ⟨false, some (.user m), r1.2, tr1⟩
        | none => ⟨false, some (.critical "mkdir_parents"), r1.2, tr1⟩
      | none => doRename r1.2 tr1

/-- The four answers of the name-status query. -/
inductive NameStatus
  | nameExists | nameValid | nameInvalid | nameNoInferiors
deriving DecidableEq

/-- Result of mbox_get_mailbox_name_status: the returned flag, the
`*status` out-parameter (`none` when never written), error slot, state,
trace. -/
structure StatusOut (σ : Type) where
  ret : Bool
  status : Option NameStatus
  err : Option StorageErr
  s : σ
  tr : List Event
deriving DecidableEq

/-- mbox_get_mailbox_name_status. -/
def mbox_get_mailbox_name_status {σ : Type} (sys : Sys σ)
    (he : String → String) (ffa : Bool) (st : Storage) (name0 : String)
    (s0 : σ) : StatusOut σ :=
  let name := if strcaseEq name0 "INBOX" then "INBOX" else name0
  if !mbox_is_valid_existing_name ffa name then
    ⟨true, some .nameInvalid, none, s0, []⟩
  else
    let path := mbox_get_path he ffa st name
    let r1 := sys.stat path s0
    let tr1 := [Event.statE path]
    match r1.1 with
    | .ok _ => ⟨true, some .nameExists, none, r1.2, tr1⟩
    | .error e =>
      if !mbox_is_valid_create_name ffa st name then
        ⟨true, some .nameInvalid, none, r1.2, tr1⟩
      else if ENOTFOUND e || e = .EACCES then
        ⟨true, some .nameValid, none, r1.2, tr1⟩
      else if e = .ENOTDIR then
        ⟨true, some .nameNoInferiors, none, r1.2, tr1⟩
      else ⟨false, none, some (.critical "stat name status"), r1.2, tr1⟩

/-! ### The lock state machine -/

/-- The request bit-flags of enum mailbox_lock_type; the all-false value is
MAIL_LOCK_UNLOCK. -/
structure LockReq where
  read : Bool
  flagsB : Bool
  expunge : Bool
  save : Bool
deriving DecidableEq, Fintype

/-- MAIL_LOCK_UNLOCK: no bit set. -/
def unlockReq : LockReq := ⟨false, false, false, false⟩

/-- The index-level lock modes the machine requests. -/
inductive IdxMode
  | unlock | shared | exclusive
deriving DecidableEq, Fintype

/-- Outcomes of the external index_storage_lock / index_storage_sync_and_lock
collaborators (modelled from the spec as per-mode success flags). -/
structure LockEnv where
  unlockOk : Bool
  sharedOk : Bool
  exclusiveOk : Bool
  syncOk : Bool
deriving DecidableEq, Fintype

/-- Dispatch of the modelled index_storage_lock outcome by requested mode. -/
def idxLockOk (env : LockEnv) : IdxMode → Bool
  | .unlock => env.unlockOk
  | .shared => env.sharedOk
  | .exclusive => env.exclusiveOk

/-- The index-layer calls the machine makes, in order. -/
inductive IdxCall
  | lockC (m : IdxMode)
  | syncAndLockC (m : IdxMode)
deriving DecidableEq

/-- Result of mbox_storage_lock: `none` stands for the i_assert firing
(programming-contract violation), otherwise the returned flag; plus the
handle's lock_type after the call and the index-layer calls made. -/
structure LockOut where
  res : Option Bool
  lock_type : LockReq
  calls : List IdxCall
deriving DecidableEq

/-- mbox_storage_lock. -/
def mbox_storage_lock (env : LockEnv) (cur : LockReq) (req : LockReq) :
    LockOut :=
  if req = unlockReq then
    -- ibox->lock_type is reset before the index unlock is attempted
    if !idxLockOk env .unlock then ⟨some false, unlockReq, [.lockC .unlock]⟩
    else ⟨some true, unlockReq, [.lockC .unlock]⟩
  else if cur ≠ unlockReq then ⟨none, cur, []⟩
  else
    let step2 : List IdxCall → LockOut := fun calls =>
      if req.expunge || req.save then
        if !env.syncOk then
          ⟨some false, cur, calls ++ [.syncAndLockC .exclusive]⟩
        else ⟨some true, req, calls ++ [.syncAndLockC .exclusive]⟩
      else ⟨some true, req, calls⟩
    if req.expunge || req.flagsB then
      if !idxLockOk env .exclusive then ⟨some false, cur, [.lockC .exclusive]⟩
      else step2 [.lockC .exclusive]
    else if req.read then
      if !idxLockOk env .shared then ⟨some false, cur, [.lockC .shared]⟩
      else step2 [.lockC .shared]
    else step2 []

/-! ## Theorems -/

/-- Bridge: the loop's reject test at the head position is exactly "this
suffix begins a ..-plus-separator segment". -/
theorem startsDotDotSep_cons (c : Char) (rest : List Char) :
    startsDotDotSep (c :: rest) = (c = '.' && dotSepAfter rest) := by
  match rest with
  | [] => simp [startsDotDotSep, dotSepAfter]
  | [c1] => simp [startsDotDotSep, dotSepAfter]
  | c1 :: c2 :: t => simp [startsDotDotSep, dotSepAfter, Bool.and_assoc]

/-- The scanning loop rejects exactly the lists holding, at a segment start,
".." directly followed by a separator. -/
theorem validMaskLoop_eq (cs : List Char) : ∀ nd : Bool,
    validMaskLoop cs nd = !((segStartSuffixes nd cs).any startsDotDotSep) := by
  induction cs with
  | nil => intro nd; simp [validMaskLoop, segStartSuffixes]
  | cons c rest ih =>
    intro nd
    rw [validMaskLoop]
    cases nd with
    | false =>
      simp only [Bool.false_and, if_neg (by simp : ¬ (false = true))]
      simp [segStartSuffixes, ih]
    | true =>
      by_cases h : (c = '.' && dotSepAfter rest) = true
      · simp [h, segStartSuffixes, startsDotDotSep_cons]
      · simp only [Bool.true_and] at *
        simp [h, segStartSuffixes, startsDotDotSep_cons, ih]

/-- C1 (amended): for every name, with full-filesystem-access disabled,
mbox_is_valid_mask returns false iff the name starts with a slash, backslash
or tilde, or contains a ".." path segment directly followed by a separator
(".." as the final segment is accepted); with full-filesystem-access enabled
it returns true for every name. -/
theorem mbox_is_valid_mask_characterisation (ffa : Bool) (mask : String) :
    mbox_is_valid_mask ffa mask =
      (ffa || !(startsAbsChar mask || hasTraversalSeg mask.data)) := by
  cases ffa with
  | true => simp [mbox_is_valid_mask]
  | false =>
    rw [mbox_is_valid_mask]
    by_cases h : startsAbsChar mask = true
    · simp [h]
    · simp only [Bool.not_eq_true] at h
      simp [h, validMaskLoop_eq, hasTraversalSeg]

/-- C1 (counterexample): the claim says a ".." segment followed by
end-of-string is rejected; on the name ".." the code accepts while the
claim's reading rejects. -/
theorem mbox_is_valid_mask_dotdot_counterexample :
    mbox_is_valid_mask false ".." = true ∧
      spec_is_valid_mask false ".." = false := by
  decide

/-- C7: resolve_index_dir is a pure function of the handle and name; outside
the full-filesystem-access absolute/home branch it returns `none` exactly when
the handle has no index root, and otherwise splits the name at its last
hierarchy separator into (parents, leaf) yielding
index_root/parents/.imap/leaf — index_root/.imap/name when the name has no
separator — so the hidden index directory token is the fixed ".imap". -/
theorem mbox_get_index_dir_spec (he : String → String) (ffa : Bool)
    (st : Storage) (name : String) (h : (ffa && headAbsHome name) = false) :
    (mbox_get_index_dir he ffa st name = none ↔ st.index_dir = none) ∧
    ∀ idir, st.index_dir = some idir →
      mbox_get_index_dir he ffa st name =
        some (match lastSplit name.data with
          | none => idir ++ "/.imap/" ++ name
          | some q => idir ++ "/" ++ String.mk q.1 ++ "/.imap/" ++ String.mk q.2) := by
  cases hidx : st.index_dir with
  | none => simp [mbox_get_index_dir, hidx]
  | some idir =>
    constructor
    · simp only [mbox_get_index_dir, hidx, h, Bool.false_eq_true, if_false]
      cases hls : lastSplit name.data <;> simp
    · intro idir2 hidir2
      injection hidir2 with hh
      subst hh
      simp only [mbox_get_index_dir, hidx, h, Bool.false_eq_true, if_false]
      cases hls : lastSplit name.data <;> simp [hls]

/-- C7 witness: concrete instantiation on the name "a/b". -/
theorem mbox_get_index_dir_spec_witness :
    mbox_get_index_dir id false ⟨"/m", "/m/inbox", some "/x", '/'⟩ "a/b" =
      some "/x/a/.imap/b" := by
  have h := (mbox_get_index_dir_spec id false
    ⟨"/m", "/m/inbox", some "/x", '/'⟩ "a/b" (by decide)).2 "/x" rfl
  exact h.trans (by decide)

/-- C8: the error classifier maps the permission-denied class to
PermissionDenied, the out-of-space class to NoSpace, the
not-found/path-component-broken class to PathBroken ("Directory structure is
broken"), and reports every other code unhandled (no error set). -/
theorem mbox_handle_errors_classification (e : Errno) :
    (ENOACCESS e = true → mbox_handle_errors e = some .permissionDenied) ∧
    (ENOSPACE e = true → mbox_handle_errors e = some .noSpace) ∧
    (ENOTFOUND e = true → mbox_handle_errors e = some .dirStructBroken) ∧
    (ENOACCESS e = false → ENOSPACE e = false → ENOTFOUND e = false →
      mbox_handle_errors e = none) := by
  cases e <;> refine ⟨?_, ?_, ?_, ?_⟩ <;> decide

/-- C8 witness: one code from each class, and one unclassified code. -/
theorem mbox_handle_errors_classification_witness :
    mbox_handle_errors .EACCES = some .permissionDenied ∧
    mbox_handle_errors .ENOSPC = some .noSpace ∧
    mbox_handle_errors .ENOENT = some .dirStructBroken ∧
    mbox_handle_errors .EOTHER = none :=
  ⟨(mbox_handle_errors_classification .EACCES).1 rfl,
   (mbox_handle_errors_classification .ENOSPC).2.1 rfl,
   (mbox_handle_errors_classification .ENOENT).2.2.1 rfl,
   (mbox_handle_errors_classification .EOTHER).2.2.2 rfl rfl rfl⟩

/-- C9: every name case-insensitively equal to "INBOX" resolves to the
handle's configured inbox path, whatever the casing and whatever the
full-filesystem-access flag. -/
theorem mbox_get_path_inbox (he : String → String) (ffa : Bool) (st : Storage)
    (name : String) (h : strcaseEq name "INBOX" = true) :
    mbox_get_path he ffa st name = st.inbox_file := by
  rw [mbox_get_path, if_pos h]

/-- C9 witness: mixed casing, both flag values. -/
theorem mbox_get_path_inbox_witness :
    mbox_get_path id false ⟨"/m", "/var/mail/u", none, '/'⟩ "iNbOx" =
        "/var/mail/u" ∧
    mbox_get_path id true ⟨"/m", "/var/mail/u", none, '/'⟩ "inbox" =
        "/var/mail/u" :=
  ⟨mbox_get_path_inbox id false ⟨"/m", "/var/mail/u", none, '/'⟩ "iNbOx"
      (by decide),
   mbox_get_path_inbox id true ⟨"/m", "/var/mail/u", none, '/'⟩ "inbox"
      (by decide)⟩

set_option maxHeartbeats 1000000 in
/-- C5: the lock transition function honours Unlock from any state and resets
the state to Unlocked (even when the index unlock fails); any non-Unlock
request from a non-Unlocked state fires the programming-contract assertion;
Flags/Expunge first acquire an exclusive index lock while Read (without
Flags/Expunge) acquires a shared one; Expunge/Save additionally run the
synchronize-and-relock-exclusive step last; and the handle's lock state
becomes the requested mode exactly on overall success, remaining Unlocked on
any failure. -/
theorem mbox_storage_lock_contract :
    ∀ (env : LockEnv) (cur req : LockReq),
      ((mbox_storage_lock env cur req).res = some true →
         (mbox_storage_lock env cur req).lock_type = req) ∧
      ((mbox_storage_lock env cur req).res = some false →
         (mbox_storage_lock env cur req).lock_type = unlockReq) ∧
      (req = unlockReq →
         (mbox_storage_lock env cur req).lock_type = unlockReq ∧
         (mbox_storage_lock env cur req).res = some (idxLockOk env .unlock)) ∧
      (req ≠ unlockReq → cur ≠ unlockReq →
         (mbox_storage_lock env cur req).res = none ∧
         (mbox_storage_lock env cur req).calls = []) ∧
      (req ≠ unlockReq → cur = unlockReq →
         ((req.flagsB || req.expunge) = true →
            (mbox_storage_lock env cur req).calls.head? =
              some (.lockC .exclusive)) ∧
         (req.read = true → (req.flagsB || req.expunge) = false →
            (mbox_storage_lock env cur req).calls.head? =
              some (.lockC .shared)) ∧
         ((req.expunge || req.save) = true →
            (mbox_storage_lock env cur req).res = some true →
            (mbox_storage_lock env cur req).calls.getLast? =
              some (.syncAndLockC .exclusive)) ∧
         ((req.expunge || req.save) = false →
            ∀ m, (.syncAndLockC m) ∉ (mbox_storage_lock env cur req).calls)) := by
  have h1 : ∀ (env : LockEnv) (cur req : LockReq),
      (mbox_storage_lock env cur req).res = some true →
      (mbox_storage_lock env cur req).lock_type = req := by decide
  have h2 : ∀ (env : LockEnv) (cur req : LockReq),
      (mbox_storage_lock env cur req).res = some false →
      (mbox_storage_lock env cur req).lock_type = unlockReq := by decide
  have h3 : ∀ (env : LockEnv) (cur req : LockReq),
      req = unlockReq →
      (mbox_storage_lock env cur req).lock_type = unlockReq ∧
      (mbox_storage_lock env cur req).res = some (idxLockOk env .unlock) := by
    decide
  have h4 : ∀ (env : LockEnv) (cur req : LockReq),
      req ≠ unlockReq → cur ≠ unlockReq →
      (mbox_storage_lock env cur req).res = none ∧
      (mbox_storage_lock env cur req).calls = [] := by decide
  have h5 : ∀ (env : LockEnv) (cur req : LockReq),
      req ≠ unlockReq → cur = unlockReq →
      ((req.flagsB || req.expunge) = true →
         (mbox_storage_lock env cur req).calls.head? =
           some (.lockC .exclusive)) ∧
      (req.read = true → (req.flagsB || req.expunge) = false →
         (mbox_storage_lock env cur req).calls.head? =
           some (.lockC .shared)) ∧
      ((req.expunge || req.save) = true →
         (mbox_storage_lock env cur req).res = some true →
         (mbox_storage_lock env cur req).calls.getLast? =
           some (.syncAndLockC .exclusive)) ∧
      ((req.expunge || req.save) = false →
         ∀ m, (.syncAndLockC m) ∉ (mbox_storage_lock env cur req).calls) := by
    decide
  exact fun env cur req =>
    ⟨h1 env cur req, h2 env cur req, h3 env cur req, h4 env cur req,
     h5 env cur req⟩

/-- C5 witness: an expunge request from Unlocked with a cooperative index
layer takes the exclusive lock, syncs-and-relocks last, and lands in the
requested state. -/
theorem mbox_storage_lock_contract_witness :
    (mbox_storage_lock ⟨true, true, true, true⟩ unlockReq
        ⟨false, false, true, false⟩).calls.head? =
      some (.lockC .exclusive) ∧
    (mbox_storage_lock ⟨true, true, true, true⟩ unlockReq
        ⟨false, false, true, false⟩).calls.getLast? =
      some (.syncAndLockC .exclusive) ∧
    (mbox_storage_lock ⟨true, true, true, true⟩ unlockReq
        ⟨false, false, true, false⟩).lock_type = ⟨false, false, true, false⟩ := by
  have h := mbox_storage_lock_contract ⟨true, true, true, true⟩ unlockReq
    ⟨false, false, true, false⟩
  exact ⟨(h.2.2.2.2 (by decide) rfl).1 (by decide),
         (h.2.2.2.2 (by decide) rfl).2.2.1 (by decide) (by decide),
         h.1 (by decide)⟩

/-- C4 (counterexample): on a creation-valid name whose stat fails with the
not-a-directory code, the status query answers Valid, not NoInferiors as the
claim states — the not-a-directory code belongs to the not-found class, so
the NoInferiors branch is dead. -/
theorem mbox_name_status_enotdir_counterexample :
    (mbox_get_mailbox_name_status tapeSys id false
        ⟨"/m", "/m/inbox", some "/m", '/'⟩ "a" [.error .ENOTDIR]).status =
      some .nameValid ∧
    NameStatus.nameValid ≠ NameStatus.nameNoInferiors := by
  decide

/-- C4 (amended): the status query checks in this order: a name invalid under
existing-name rules yields Invalid; otherwise a successful stat yields Exists
(even for creation-invalid names); otherwise a creation-invalid name yields
Invalid; otherwise a stat failure in the not-found class (which includes
not-a-directory) or permission-denied yields Valid; any other stat failure is
a critical error and the call returns failure; NoInferiors is never
produced. -/
theorem mbox_name_status_spec (he : String → String) (ffa : Bool)
    (st : Storage) (name0 : String) (o : Except Errno StatKind) (rest : Tape) :
    (mbox_is_valid_existing_name ffa
        (if strcaseEq name0 "INBOX" then "INBOX" else name0) = false →
       mbox_get_mailbox_name_status tapeSys he ffa st name0 (o :: rest) =
         ⟨true, some .nameInvalid, none, o :: rest, []⟩) ∧
    (mbox_is_valid_existing_name ffa
        (if strcaseEq name0 "INBOX" then "INBOX" else name0) = true →
       (∀ k, o = .ok k →
          (mbox_get_mailbox_name_status tapeSys he ffa st name0
              (o :: rest)).ret = true ∧
          (mbox_get_mailbox_name_status tapeSys he ffa st name0
              (o :: rest)).status = some .nameExists) ∧
       (∀ e, o = .error e →
          (mbox_is_valid_create_name ffa st
              (if strcaseEq name0 "INBOX" then "INBOX" else name0) = false →
             (mbox_get_mailbox_name_status tapeSys he ffa st name0
                 (o :: rest)).ret = true ∧
             (mbox_get_mailbox_name_status tapeSys he ffa st name0
                 (o :: rest)).status = some .nameInvalid) ∧
          (mbox_is_valid_create_name ffa st
              (if strcaseEq name0 "INBOX" then "INBOX" else name0) = true →
             ((ENOTFOUND e || e = .EACCES) = true →
                (mbox_get_mailbox_name_status tapeSys he ffa st name0
                    (o :: rest)).ret = true ∧
                (mbox_get_mailbox_name_status tapeSys he ffa st name0
                    (o :: rest)).status = some .nameValid) ∧
             ((ENOTFOUND e || e = .EACCES) = false →
                (mbox_get_mailbox_name_status tapeSys he ffa st name0
                    (o :: rest)).ret = false ∧
                (mbox_get_mailbox_name_status tapeSys he ffa st name0
                    (o :: rest)).status = none ∧
                (mbox_get_mailbox_name_status tapeSys he ffa st name0
                    (o :: rest)).err = some (.critical "stat name status"))))) ∧
    (∀ t : Tape,
       (mbox_get_mailbox_name_status tapeSys he ffa st name0 t).status ≠
         some .nameNoInferiors) := by
  refine ⟨?_, ?_, ?_⟩
  · intro hv
    simp [mbox_get_mailbox_name_status, hv]
  · intro hv
    constructor
    · rintro k rfl
      simp [mbox_get_mailbox_name_status, hv, tapeSys, tapePop]
    · rintro e rfl
      constructor
      · intro hc
        simp [mbox_get_mailbox_name_status, hv, hc, tapeSys, tapePop]
      · intro hc
        constructor
        · intro hcls
          simp [mbox_get_mailbox_name_status, hv, hc, hcls, tapeSys, tapePop]
        · intro hcls
          have hnd : e ≠ .ENOTDIR := by
            intro heq
            rw [heq] at hcls
            simp [ENOTFOUND] at hcls
          simp [mbox_get_mailbox_name_status, hv, hc, hcls, hnd, tapeSys,
            tapePop]
  · intro t
    rw [mbox_get_mailbox_name_status]
    cases hv : mbox_is_valid_existing_name ffa
        (if strcaseEq name0 "INBOX" then "INBOX" else name0) with
    | false => simp [hv]
    | true =>
      simp only [hv]
      rcases htp : (tapeSys.stat (mbox_get_path he ffa st
          (if strcaseEq name0 "INBOX" then "INBOX" else name0)) t).1 with e | k
      · simp only [htp]
        cases hc : mbox_is_valid_create_name ffa st
            (if strcaseEq name0 "INBOX" then "INBOX" else name0) with
        | false => simp [hc]
        | true =>
          by_cases hcls : (ENOTFOUND e || e = .EACCES) = true
          · simp [hc, hcls]
          · have hnd : e ≠ .ENOTDIR := by
              intro heq
              rw [heq] at hcls
              simp [ENOTFOUND] at hcls
            simp [hc, hcls, hnd]
      · simp [htp]

/-- C4 witness: a never-created creation-valid name with a not-found stat
failure is reported Valid. -/
theorem mbox_name_status_spec_witness :
    (mbox_get_mailbox_name_status tapeSys id false
        ⟨"/m", "/m/inbox", some "/m", '/'⟩ "a" [.error .ENOENT]).ret = true ∧
    (mbox_get_mailbox_name_status tapeSys id false
        ⟨"/m", "/m/inbox", some "/m", '/'⟩ "a" [.error .ENOENT]).status =
      some .nameValid := by
  have h := ((((mbox_name_status_spec id false
      ⟨"/m", "/m/inbox", some "/m", '/'⟩ "a" (.error .ENOENT) []).2.1
      (by decide)).2 .ENOENT rfl).2 (by decide)).1 (by decide)
  exact h

/-- C10: verify_inbox ignores the outcome of the exclusive create of the
inbox file entirely — result, error slot and world state after the call are
identical for every outcome of that open; it succeeds precisely when the
INBOX index directories need not or can be created; and the INBOX open
proceeds to the normal open path exactly when verify_inbox succeeded, so a
successful INBOX open never implies the inbox file was created or exists. -/
theorem verify_inbox_ignores_create_failure (he : String → String)
    (ffa : Bool) (st : Storage) (o1 o2 : Option Errno) (rest : Tape) :
    ((verify_inbox tapeSys he ffa st (encU o1 :: rest)).ok =
       (verify_inbox tapeSys he ffa st (encU o2 :: rest)).ok ∧
     (verify_inbox tapeSys he ffa st (encU o1 :: rest)).err =
       (verify_inbox tapeSys he ffa st (encU o2 :: rest)).err ∧
     (verify_inbox tapeSys he ffa st (encU o1 :: rest)).s =
       (verify_inbox tapeSys he ffa st (encU o2 :: rest)).s) ∧
    ((verify_inbox tapeSys he ffa st (encU o1 :: rest)).ok = true ↔
       (mbox_get_index_dir he ffa st "INBOX" = none ∨
        (tapePopU rest).1 = none)) ∧
    (∀ o : Option Errno,
       (mbox_open_mailbox tapeSys he ffa st "INBOX" (encU o :: rest)).box =
         (if (verify_inbox tapeSys he ffa st (encU o :: rest)).ok = true
          then some (mbox_open he ffa st "INBOX") else none)) := by
  have hpop : ∀ o : Option Errno,
      tapeSys.openExcl st.inbox_file (encU o :: rest) =
        ((tapePopU (encU o :: rest)).1, rest) := by
    intro o
    cases o <;> rfl
  have key : ∀ o : Option Errno,
      verify_inbox tapeSys he ffa st (encU o :: rest) =
        (match mbox_get_index_dir he ffa st "INBOX" with
         | none =>
           ⟨true, none, rest, [.openExclE st.inbox_file]⟩
         | some idir =>
           match (tapePopU rest).1 with
           | some _ =>
             ⟨false, some (.critical "mkdir_parents"), (tapePopU rest).2,
              [.openExclE st.inbox_file, .mkdirParentsE idir]⟩
           | none =>
             ⟨true, none, (tapePopU rest).2,
              [.openExclE st.inbox_file, .mkdirParentsE idir]⟩) := by
    intro o
    rw [verify_inbox]
    rw [hpop o]
    rw [create_mbox_index_dirs]
    cases hidx : mbox_get_index_dir he ffa st "INBOX" with
    | none => rfl
    | some idir =>
      show (⟨_, _, _, _⟩ : Out Tape) = _
      cases hmp : (tapePopU rest).1 with
      | none => simp [tapeSys, hmp]
      | some e => simp [tapeSys, hmp]
  refine ⟨?_, ?_, ?_⟩
  · rw [key o1, key o2]
    exact ⟨rfl, rfl, rfl⟩
  · rw [key o1]
    cases hidx : mbox_get_index_dir he ffa st "INBOX" with
    | none => simp
    | some idir =>
      cases hmp : (tapePopU rest).1 with
      | none => simp [hmp]
      | some e => simp [hmp]
  · intro o
    rw [mbox_open_mailbox]
    simp only [show strcaseEq "INBOX" "INBOX" = true from rfl, if_true]
    cases hok : (verify_inbox tapeSys he ffa st (encU o :: rest)).ok <;>
      simp [hok]

/-- C10 witness: a permission-denied failure of the inbox create still lets
the INBOX open proceed when the index directories can be created. -/
theorem verify_inbox_ignores_create_failure_witness :
    (mbox_open_mailbox tapeSys id false ⟨"/m", "/m/inbox", some "/m", '/'⟩
        "INBOX" [encU (some .EACCES), encU none]).box =
      some (mbox_open id false ⟨"/m", "/m/inbox", some "/m", '/'⟩ "INBOX") := by
  have h := (verify_inbox_ignores_create_failure id false
    ⟨"/m", "/m/inbox", some "/m", '/'⟩ (some .EACCES) none
    [encU none]).2.2 (some .EACCES)
  exact h.trans (by decide)

/-- Unfolding lemma for the idealised stat. -/
theorem fsSys_stat (p : String) (fs : Fs) :
    fsSys.stat p fs =
      (match fsGet fs p with
       | some k => .ok k
       | none => .error .ENOENT, fs) := rfl

/-- Helper for the create/create composition: a successful create leaves the
resolved path present as a file in the idealised filesystem (the exclusive
create is the only success exit and it inserts the path). -/
theorem create_ok_fsGet (he : String → String) (ffa : Bool) (st : Storage)
    (name : String) (fs : Fs)
    (h : (mbox_create_mailbox fsSys he ffa st name false fs).ok = true) :
    fsGet (mbox_create_mailbox fsSys he ffa st name false fs).s
      (mbox_get_path he ffa st
        (if strcaseEq name "INBOX" then "INBOX" else name)) = some .fileK := by
  cases hv : mbox_is_valid_create_name ffa st
      (if strcaseEq name "INBOX" then "INBOX" else name) with
  | false =>
    rw [mbox_create_mailbox] at h
    simp [hv] at h
  | true =>
    cases hg : fsGet fs (mbox_get_path he ffa st
        (if strcaseEq name "INBOX" then "INBOX" else name)) with
    | some k =>
      rw [mbox_create_mailbox] at h
      simp [hv, fsSys, hg] at h
    | none =>
      cases hls : lastSplit (mbox_get_path he ffa st
          (if strcaseEq name "INBOX" then "INBOX" else name)).data with
      | none =>
        have hT : mbox_create_mailbox fsSys he ffa st name false fs =
            ⟨true, none,
             (mbox_get_path he ffa st
                (if strcaseEq name "INBOX" then "INBOX" else name),
              StatKind.fileK) :: fs,
             [.statE (mbox_get_path he ffa st
                (if strcaseEq name "INBOX" then "INBOX" else name)),
              .openExclE (mbox_get_path he ffa st
                (if strcaseEq name "INBOX" then "INBOX" else name))]⟩ := by
          rw [mbox_create_mailbox]
          simp [hv, fsSys, hg, hls]
        rw [hT]
        simp [fsGet]
      | some q =>
        rcases hmk : fsMkdirs fs (mkdirsList (String.mk q.1)) with ⟨r, fs2⟩
        cases r with
        | some e2 =>
          rw [mbox_create_mailbox] at h
          cases hhe : mbox_handle_errors e2 <;>
            simp [hv, fsSys, hg, hls, hmk, hhe] at h
        | none =>
          cases hg2 : fsGet fs2 (mbox_get_path he ffa st
              (if strcaseEq name "INBOX" then "INBOX" else name)) with
          | some k2 =>
            rw [mbox_create_mailbox] at h
            simp [hv, fsSys, hg, hls, hmk, hg2] at h
          | none =>
            have hT : mbox_create_mailbox fsSys he ffa st name false fs =
                ⟨true, none,
                 (mbox_get_path he ffa st
                    (if strcaseEq name "INBOX" then "INBOX" else name),
                  StatKind.fileK) :: fs2,
                 [.statE (mbox_get_path he ffa st
                    (if strcaseEq name "INBOX" then "INBOX" else name)),
                  .mkdirParentsE (String.mk q.1),
                  .openExclE (mbox_get_path he ffa st
                    (if strcaseEq name "INBOX" then "INBOX" else name))]⟩ := by
              rw [mbox_create_mailbox]
              simp [hv, fsSys, hg, hls, hmk, hg2]
            rw [hT]
            simp [fsGet]

/-- C3: create reports "Mailbox already exists" as a user error (never a
critical error) whenever the target path exists: both when the initial stat
succeeds, and when the stat reported absence but the exclusive O_CREAT|O_EXCL
open fails with the already-exists code because a concurrent creator raced to
the path; consequently, on the idealised filesystem, a create immediately
following a successful create of the same name yields AlreadyExists. -/
theorem mbox_create_already_exists :
    (∀ (he : String → String) (ffa : Bool) (st : Storage) (name0 : String)
        (oh : Bool) (k : StatKind) (rest : Tape),
       mbox_is_valid_create_name ffa st
           (if strcaseEq name0 "INBOX" then "INBOX" else name0) = true →
       mbox_create_mailbox tapeSys he ffa st name0 oh (.ok k :: rest) =
         ⟨false, some (.user .alreadyExists), rest,
          [.statE (mbox_get_path he ffa st
            (if strcaseEq name0 "INBOX" then "INBOX" else name0))]⟩) ∧
    (∀ (he : String → String) (ffa : Bool) (st : Storage) (name0 : String)
        (e : Errno) (q : List Char × List Char) (rest : Tape),
       mbox_is_valid_create_name ffa st
           (if strcaseEq name0 "INBOX" then "INBOX" else name0) = true →
       (e = .ENOENT ∨ e = .ELOOP ∨ e = .EACCES) →
       lastSplit (mbox_get_path he ffa st
           (if strcaseEq name0 "INBOX" then "INBOX" else name0)).data =
         some q →
       mbox_create_mailbox tapeSys he ffa st name0 false
           (.error e :: encU none :: encU (some .EEXIST) :: rest) =
         ⟨false, some (.user .alreadyExists), rest,
          [.statE (mbox_get_path he ffa st
             (if strcaseEq name0 "INBOX" then "INBOX" else name0)),
           .mkdirParentsE (String.mk q.1),
           .openExclE (mbox_get_path he ffa st
             (if strcaseEq name0 "INBOX" then "INBOX" else name0))]⟩) ∧
    (∀ (he : String → String) (ffa : Bool) (st : Storage) (name : String)
        (fs : Fs),
       (mbox_create_mailbox fsSys he ffa st name false fs).ok = true →
       (mbox_create_mailbox fsSys he ffa st name false
           (mbox_create_mailbox fsSys he ffa st name false fs).s).ok = false ∧
       (mbox_create_mailbox fsSys he ffa st name false
           (mbox_create_mailbox fsSys he ffa st name false fs).s).err =
         some (.user .alreadyExists)) := by
  refine ⟨?_, ?_, ?_⟩
  · intro he ffa st name0 oh k rest hv
    rw [mbox_create_mailbox]
    simp [hv, tapeSys, tapePop]
  · intro he ffa st name0 e q rest hv he3 hls
    rw [mbox_create_mailbox]
    simp only [hv, Bool.not_true, Bool.false_eq_true, if_false]
    have hence : ¬(e ≠ Errno.ENOENT ∧ e ≠ Errno.ELOOP ∧ e ≠ Errno.EACCES) := by
      rcases he3 with rfl | rfl | rfl <;> simp
    simp [tapeSys, tapePop, tapePopU, encU, hence, hls]
  · intro he ffa st name fs h
    have hkey := create_ok_fsGet he ffa st name fs h
    have hv : mbox_is_valid_create_name ffa st
        (if strcaseEq name "INBOX" then "INBOX" else name) = true := by
      by_contra hv
      rw [mbox_create_mailbox] at h
      simp [Bool.eq_false_iff.mpr hv] at h
    have hT2 : mbox_create_mailbox fsSys he ffa st name false
        (mbox_create_mailbox fsSys he ffa st name false fs).s =
        ⟨false, some (.user .alreadyExists),
         (mbox_create_mailbox fsSys he ffa st name false fs).s,
         [.statE (mbox_get_path he ffa st
            (if strcaseEq name "INBOX" then "INBOX" else name))]⟩ := by
      rw [mbox_create_mailbox]
      simp only [hv, Bool.not_true, Bool.false_eq_true, if_false, fsSys_stat,
        hkey]
    rw [hT2]
    exact ⟨rfl, rfl⟩

/-- C3 witness: stat finding the target makes create answer AlreadyExists
with the user error, on a concrete handle and name. -/
theorem mbox_create_already_exists_witness :
    mbox_create_mailbox tapeSys id false ⟨"/m", "/m/inbox", some "/m", '/'⟩
        "box" false [.ok .fileK] =
      ⟨false, some (.user .alreadyExists), [], [.statE "/m/box"]⟩ := by
  have h := mbox_create_already_exists.1 id false
    ⟨"/m", "/m/inbox", some "/m", '/'⟩ "box" false .fileK [] (by decide)
  exact h.trans (by rfl)

/-- C6: deleting a directory-backed name first attempts to rmdir the hidden
".imap" index subdirectory — tolerating its absence and non-emptiness — and
only then rmdirs the directory itself (the trace shows the index rmdir
strictly before the directory rmdir); a non-empty directory at that second
rmdir yields the NotEmpty user error; and on the idealised filesystem a
folder with one remaining child yields NotEmpty, after which deleting the
child and repeating the folder delete succeeds. -/
theorem mbox_delete_folder_spec :
    (∀ (he : String → String) (ffa : Bool) (st : Storage) (name : String)
        (o2 o3 : Option Errno) (rest : Tape),
       strcaseEq name "INBOX" = false →
       mbox_is_valid_existing_name ffa name = true →
       (match o2 with
        | none => true
        | some e2 => ENOTFOUND e2 || e2 = .ENOTEMPTY) = true →
       (mbox_delete_mailbox tapeSys he ffa st name
           (.ok .dirK :: encU o2 :: encU o3 :: rest)).tr =
         [.lstatE (mbox_get_path he ffa st name),
          .rmdirE (match st.index_dir with
            | none => ""
            | some d => d ++ "/" ++ name ++ "/.imap"),
          .rmdirE (mbox_get_path he ffa st name)] ∧
       (o3 = some .ENOTEMPTY →
          (mbox_delete_mailbox tapeSys he ffa st name
              (.ok .dirK :: encU o2 :: encU o3 :: rest)).ok = false ∧
          (mbox_delete_mailbox tapeSys he ffa st name
              (.ok .dirK :: encU o2 :: encU o3 :: rest)).err =
            some (.user (.notEmpty name))) ∧
       (o3 = none →
          (mbox_delete_mailbox tapeSys he ffa st name
              (.ok .dirK :: encU o2 :: encU o3 :: rest)).ok = true)) ∧
    ((mbox_delete_mailbox fsSys id false ⟨"/m", "/m/inbox", some "/m", '/'⟩
        "d" [("/m/d", .dirK), ("/m/d/c", .fileK)]).ok = false ∧
     (mbox_delete_mailbox fsSys id false ⟨"/m", "/m/inbox", some "/m", '/'⟩
        "d" [("/m/d", .dirK), ("/m/d/c", .fileK)]).err =
       some (.user (.notEmpty "d")) ∧
     (mbox_delete_mailbox fsSys id false ⟨"/m", "/m/inbox", some "/m", '/'⟩
        "d/c"
        (mbox_delete_mailbox fsSys id false ⟨"/m", "/m/inbox", some "/m", '/'⟩
          "d" [("/m/d", .dirK), ("/m/d/c", .fileK)]).s).ok = true ∧
     (mbox_delete_mailbox fsSys id false ⟨"/m", "/m/inbox", some "/m", '/'⟩
        "d"
        (mbox_delete_mailbox fsSys id false ⟨"/m", "/m/inbox", some "/m", '/'⟩
          "d/c"
          (mbox_delete_mailbox fsSys id false
            ⟨"/m", "/m/inbox", some "/m", '/'⟩
            "d" [("/m/d", .dirK), ("/m/d/c", .fileK)]).s).s).ok = true) := by
  constructor
  · intro he ffa st name o2 o3 rest hn1 hv htol
    rw [mbox_delete_mailbox]
    simp only [hn1, Bool.false_eq_true, if_false, hv, Bool.not_true]
    cases o2 with
    | none =>
      cases o3 with
      | none => simp [tapeSys, tapePop, tapePopU, encU]
      | some e3 =>
        refine ⟨?_, ?_, ?_⟩
        · rcases e3 <;>
            simp [tapeSys, tapePop, tapePopU, encU, ENOTFOUND,
              mbox_handle_errors, ENOACCESS, ENOSPACE]
        · intro h3
          injection h3 with h3
          subst h3
          simp [tapeSys, tapePop, tapePopU, encU, ENOTFOUND]
        · intro hcon
          exact absurd hcon (by simp)
    | some e2 =>
      have he2 : e2 = .ENOENT ∨ e2 = .ENOTDIR ∨ e2 = .ENOTEMPTY := by
        have htol2 : (ENOTFOUND e2 || e2 = .ENOTEMPTY) = true := htol
        cases e2 <;> simp_all [ENOTFOUND]
      rcases he2 with rfl | rfl | rfl <;>
      · cases o3 with
        | none => simp [tapeSys, tapePop, tapePopU, encU, ENOTFOUND]
        | some e3 =>
          refine ⟨?_, ?_, ?_⟩
          · rcases e3 <;>
              simp [tapeSys, tapePop, tapePopU, encU, ENOTFOUND,
                mbox_handle_errors, ENOACCESS, ENOSPACE]
          · intro h3
            injection h3 with h3
            subst h3
            simp [tapeSys, tapePop, tapePopU, encU, ENOTFOUND]
          · intro hcon
            exact absurd hcon (by simp)
  · refine ⟨by decide, by decide, by decide, by decide⟩

/-- C6 witness: a missing index subdirectory is tolerated and a non-empty
folder yields the NotEmpty user error. -/
theorem mbox_delete_folder_spec_witness :
    (mbox_delete_mailbox tapeSys id false ⟨"/m", "/m/inbox", some "/m", '/'⟩
        "d" [.ok .dirK, encU (some .ENOENT), encU (some .ENOTEMPTY)]).tr =
      [.lstatE "/m/d", .rmdirE "/m/d/.imap", .rmdirE "/m/d"] ∧
    (mbox_delete_mailbox tapeSys id false ⟨"/m", "/m/inbox", some "/m", '/'⟩
        "d" [.ok .dirK, encU (some .ENOENT), encU (some .ENOTEMPTY)]).ok =
      false := by
  have h := mbox_delete_folder_spec.1 id false
    ⟨"/m", "/m/inbox", some "/m", '/'⟩ "d" (some .ENOENT) (some .ENOTEMPTY) []
    (by decide) (by decide) (by decide)
  exact ⟨h.1.trans (by rfl), (h.2.1 rfl).1⟩

/-- C2: in every execution of leaf Delete and of Rename, the storage-path
mutation (unlink of the mbox file, rename of the storage path) strictly
precedes the index-directory mutation in the syscall trace, and the boolean
result is decided by the storage mutation alone: any run failing before or at
the storage mutation (invalid names, a failed parent mkdir, a destination
lstat that finds the target or fails outside the fall-through class, a failed
storage rename, a failed unlink) returns failure having issued no
index-directory mutation, while after a successful unlink/storage-rename —
reached through ANY fall-through lstat outcome, ENOENT-class or EACCES — the
operation returns success even when the index removal or index rename fails
(that failure only records a critical error). -/
theorem mbox_delete_rename_ordering :
    (∀ (he : String → String) (ffa : Bool) (st : Storage) (name : String)
        (u ud : Option Errno) (rest : Tape),
       strcaseEq name "INBOX" = false →
       mbox_is_valid_existing_name ffa name = true →
       (∀ e, u = some e →
          (mbox_delete_mailbox tapeSys he ffa st name
              (.ok .fileK :: encU u :: encU ud :: rest)).ok = false ∧
          (mbox_delete_mailbox tapeSys he ffa st name
              (.ok .fileK :: encU u :: encU ud :: rest)).tr =
            [.lstatE (mbox_get_path he ffa st name),
             .unlinkE (mbox_get_path he ffa st name)]) ∧
       (u = none →
          (mbox_delete_mailbox tapeSys he ffa st name
              (.ok .fileK :: encU u :: encU ud :: rest)).ok = true ∧
          ((mbox_get_index_dir he ffa st name = none ∧
              (mbox_delete_mailbox tapeSys he ffa st name
                  (.ok .fileK :: encU u :: encU ud :: rest)).tr =
                [.lstatE (mbox_get_path he ffa st name),
                 .unlinkE (mbox_get_path he ffa st name)]) ∨
           (∃ d, mbox_get_index_dir he ffa st name = some d ∧
              (mbox_delete_mailbox tapeSys he ffa st name
                  (.ok .fileK :: encU u :: encU ud :: rest)).tr =
                [.lstatE (mbox_get_path he ffa st name),
                 .unlinkE (mbox_get_path he ffa st name),
                 .destroyUnrefedE, .unlinkDirE d] ∧
              (∀ e, ud = some e → e ≠ .ENOENT →
                 (mbox_delete_mailbox tapeSys he ffa st name
                     (.ok .fileK :: encU u :: encU ud :: rest)).err =
                   some (.critical "unlink_directory")))))) ∧
    (∀ (he : String → String) (ffa : Bool) (st : Storage)
        (oldname0 newname : String) (m ur uir : Option Errno)
        (ol : Except Errno StatKind) (rest : Tape),
       ((mbox_is_valid_existing_name ffa oldname0 &&
           mbox_is_valid_create_name ffa st newname) = false →
          ∀ t : Tape,
            (mbox_rename_mailbox tapeSys he ffa st oldname0 newname t).ok =
              false ∧
            (mbox_rename_mailbox tapeSys he ffa st oldname0 newname t).tr =
              []) ∧
       ((mbox_is_valid_existing_name ffa oldname0 &&
           mbox_is_valid_create_name ffa st newname) = true →
          (∀ q : List Char × List Char,
             lastSplit (mbox_get_path he ffa st newname).data = some q →
             (∀ e, m = some e →
                (mbox_rename_mailbox tapeSys he ffa st oldname0 newname
                    (encU m :: ol :: encU ur :: encU uir :: rest)).ok =
                  false ∧
                (mbox_rename_mailbox tapeSys he ffa st oldname0 newname
                    (encU m :: ol :: encU ur :: encU uir :: rest)).tr =
                  [.mkdirParentsE (String.mk q.1)]) ∧
             (m = none →
                (∀ k, ol = .ok k →
                   (mbox_rename_mailbox tapeSys he ffa st oldname0 newname
                       (encU m :: ol :: encU ur :: encU uir :: rest)).ok =
                     false ∧
                   (mbox_rename_mailbox tapeSys he ffa st oldname0 newname
                       (encU m :: ol :: encU ur :: encU uir :: rest)).tr =
                     [.mkdirParentsE (String.mk q.1),
                      .lstatE (mbox_get_path he ffa st newname)]) ∧
                (∀ e2, ol = .error e2 →
                   ((ENOTFOUND e2 || e2 = .EACCES) = false →
                      (mbox_rename_mailbox tapeSys he ffa st oldname0 newname
                          (encU m :: ol :: encU ur :: encU uir :: rest)).ok =
                        false ∧
                      (mbox_rename_mailbox tapeSys he ffa st oldname0 newname
                          (encU m :: ol :: encU ur :: encU uir :: rest)).tr =
                        [.mkdirParentsE (String.mk q.1),
                         .lstatE (mbox_get_path he ffa st newname)]) ∧
                   ((ENOTFOUND e2 || e2 = .EACCES) = true →
                      (∀ e, ur = some e →
                         (mbox_rename_mailbox tapeSys he ffa st oldname0
                             newname
                             (encU m :: ol :: encU ur :: encU uir ::
                               rest)).ok = false ∧
                         (mbox_rename_mailbox tapeSys he ffa st oldname0
                             newname
                             (encU m :: ol :: encU ur :: encU uir ::
                               rest)).tr =
                           [.mkdirParentsE (String.mk q.1),
                            .lstatE (mbox_get_path he ffa st newname),
                            .renameE (mbox_get_path he ffa st
                                (if strcaseEq oldname0 "INBOX" then "INBOX"
                                 else oldname0))
                              (mbox_get_path he ffa st newname)]) ∧
                      (ur = none →
                         (mbox_rename_mailbox tapeSys he ffa st oldname0
                             newname
                             (encU m :: ol :: encU ur :: encU uir ::
                               rest)).ok = true ∧
                         ((mbox_get_index_dir he ffa st
                             (if strcaseEq oldname0 "INBOX" then "INBOX"
                              else oldname0) = none ∧
                           (mbox_rename_mailbox tapeSys he ffa st oldname0
                               newname
                               (encU m :: ol :: encU ur :: encU uir ::
                                 rest)).tr =
                             [.mkdirParentsE (String.mk q.1),
                              .lstatE (mbox_get_path he ffa st newname),
                              .renameE (mbox_get_path he ffa st
                                  (if strcaseEq oldname0 "INBOX" then "INBOX"
                                   else oldname0))
                                (mbox_get_path he ffa st newname)]) ∨
                          (∃ oi, mbox_get_index_dir he ffa st
                               (if strcaseEq oldname0 "INBOX" then "INBOX"
                                else oldname0) = some oi ∧
                             (mbox_rename_mailbox tapeSys he ffa st oldname0
                                 newname
                                 (encU m :: ol :: encU ur :: encU uir ::
                                   rest)).tr =
                               [.mkdirParentsE (String.mk q.1),
                                .lstatE (mbox_get_path he ffa st newname),
                                .renameE (mbox_get_path he ffa st
                                    (if strcaseEq oldname0 "INBOX" then
                                       "INBOX"
                                     else oldname0))
                                  (mbox_get_path he ffa st newname),
                                .renameE oi
                                  ((mbox_get_index_dir he ffa st
                                      newname).getD "")] ∧
                             (∀ e, uir = some e →
                                (mbox_rename_mailbox tapeSys he ffa st
                                    oldname0 newname
                                    (encU m :: ol :: encU ur :: encU uir ::
                                      rest)).err =
                                  some (.critical "rename index"))))))))) ∧
          (lastSplit (mbox_get_path he ffa st newname).data = none →
             (∀ k, ol = .ok k →
                (mbox_rename_mailbox tapeSys he ffa st oldname0 newname
                    (ol :: encU ur :: encU uir :: rest)).ok = false ∧
                (mbox_rename_mailbox tapeSys he ffa st oldname0 newname
                    (ol :: encU ur :: encU uir :: rest)).tr =
                  [.lstatE (mbox_get_path he ffa st newname)]) ∧
             (∀ e2, ol = .error e2 →
                ((ENOTFOUND e2 || e2 = .EACCES) = false →
                   (mbox_rename_mailbox tapeSys he ffa st oldname0 newname
                       (ol :: encU ur :: encU uir :: rest)).ok = false ∧
                   (mbox_rename_mailbox tapeSys he ffa st oldname0 newname
                       (ol :: encU ur :: encU uir :: rest)).tr =
                     [.lstatE (mbox_get_path he ffa st newname)]) ∧
                ((ENOTFOUND e2 || e2 = .EACCES) = true →
                   (∀ e, ur = some e →
                      (mbox_rename_mailbox tapeSys he ffa st oldname0 newname
                          (ol :: encU ur :: encU uir :: rest)).ok = false ∧
                      (mbox_rename_mailbox tapeSys he ffa st oldname0 newname
                          (ol :: encU ur :: encU uir :: rest)).tr =
                        [.lstatE (mbox_get_path he ffa st newname),
                         .renameE (mbox_get_path he ffa st
                             (if strcaseEq oldname0 "INBOX" then "INBOX"
                              else oldname0))
                           (mbox_get_path he ffa st newname)]) ∧
                   (ur = none →
                      (mbox_rename_mailbox tapeSys he ffa st oldname0 newname
                          (ol :: encU ur :: encU uir :: rest)).ok = true ∧
                      ((mbox_get_index_dir he ffa st
                          (if strcaseEq oldname0 "INBOX" then "INBOX"
                           else oldname0) = none ∧
                        (mbox_rename_mailbox tapeSys he ffa st oldname0
                            newname (ol :: encU ur :: encU uir :: rest)).tr =
                          [.lstatE (mbox_get_path he ffa st newname),
                           .renameE (mbox_get_path he ffa st
                               (if strcaseEq oldname0 "INBOX" then "INBOX"
                                else oldname0))
                             (mbox_get_path he ffa st newname)]) ∨
                       (∃ oi, mbox_get_index_dir he ffa st
                            (if strcaseEq oldname0 "INBOX" then "INBOX"
                             else oldname0) = some oi ∧
                          (mbox_rename_mailbox tapeSys he ffa st oldname0
                              newname
                              (ol :: encU ur :: encU uir :: rest)).tr =
                            [.lstatE (mbox_get_path he ffa st newname),
                             .renameE (mbox_get_path he ffa st
                                 (if strcaseEq oldname0 "INBOX" then "INBOX"
                                  else oldname0))
                               (mbox_get_path he ffa st newname),
                             .renameE oi
                               ((mbox_get_index_dir he ffa st
                                   newname).getD "")] ∧
                          (∀ e, uir = some e →
                             (mbox_rename_mailbox tapeSys he ffa st oldname0
                                 newname
                                 (ol :: encU ur :: encU uir :: rest)).err =
                               some (.critical "rename index")))))))))) := by
  constructor
  · intro he ffa st name u ud rest hn1 hv
    rw [mbox_delete_mailbox]
    simp only [hn1, Bool.false_eq_true, if_false, hv, Bool.not_true]
    constructor
    · rintro e rfl
      rcases e <;>
        simp [tapeSys, tapePop, tapePopU, encU, ENOTFOUND,
          mbox_handle_errors, ENOACCESS, ENOSPACE]
    · rintro rfl
      cases hidx : mbox_get_index_dir he ffa st name with
      | none => simp [tapeSys, tapePop, tapePopU, encU, hidx]
      | some d =>
        refine ⟨?_, Or.inr ⟨d, rfl, ?_, ?_⟩⟩
        · cases ud with
          | none => simp [tapeSys, tapePop, tapePopU, encU, hidx]
          | some e3 =>
            rcases e3 <;> simp [tapeSys, tapePop, tapePopU, encU, hidx]
        · cases ud with
          | none => simp [tapeSys, tapePop, tapePopU, encU, hidx]
          | some e3 =>
            rcases e3 <;> simp [tapeSys, tapePop, tapePopU, encU, hidx]
        · rintro e rfl hne
          rcases e <;>
            first
              | exact absurd rfl hne
              | simp [tapeSys, tapePop, tapePopU, encU, hidx]
  · intro he ffa st oldname0 newname m ur uir ol rest
    constructor
    · intro hval t
      rw [mbox_rename_mailbox]
      simp [hval]
    · intro hval
      constructor
      · intro q hls
        rw [mbox_rename_mailbox]
        simp only [hval, Bool.not_true, Bool.false_eq_true, if_false, hls]
        constructor
        · rintro e rfl
          rcases e <;>
            simp [tapeSys, tapePop, tapePopU, encU, ENOTFOUND,
              mbox_handle_errors, ENOACCESS, ENOSPACE]
        · rintro rfl
          constructor
          · rintro k rfl
            simp [tapeSys, tapePop, tapePopU, encU]
          · rintro e2 rfl
            constructor
            · intro hcls
              rcases e2 <;>
                first
                  | exact absurd hcls (by decide)
                  | simp [tapeSys, tapePop, tapePopU, encU, ENOTFOUND]
            · intro hcls
              have he2 : e2 = .ENOENT ∨ e2 = .ENOTDIR ∨ e2 = .EACCES := by
                rcases e2 <;> simp_all [ENOTFOUND]
              rcases he2 with rfl | rfl | rfl <;>
              · constructor
                · rintro e rfl
                  rcases e <;>
                    simp [tapeSys, tapePop, tapePopU, encU, ENOTFOUND,
                      mbox_handle_errors, ENOACCESS, ENOSPACE]
                · rintro rfl
                  cases hidx : mbox_get_index_dir he ffa st
                      (if strcaseEq oldname0 "INBOX" then "INBOX"
                       else oldname0) with
                  | none =>
                    simp [tapeSys, tapePop, tapePopU, encU, hidx, ENOTFOUND]
                  | some oi =>
                    refine ⟨?_, Or.inr ⟨oi, rfl, ?_, ?_⟩⟩
                    · cases uir with
                      | none =>
                        simp [tapeSys, tapePop, tapePopU, encU, hidx,
                          ENOTFOUND]
                      | some e3 =>
                        simp [tapeSys, tapePop, tapePopU, encU, hidx,
                          ENOTFOUND]
                    · cases uir with
                      | none =>
                        simp [tapeSys, tapePop, tapePopU, encU, hidx,
                          ENOTFOUND]
                      | some e3 =>
                        simp [tapeSys, tapePop, tapePopU, encU, hidx,
                          ENOTFOUND]
                    · rintro e rfl
                      simp [tapeSys, tapePop, tapePopU, encU, hidx, ENOTFOUND]
      · intro hls
        rw [mbox_rename_mailbox]
        simp only [hval, Bool.not_true, Bool.false_eq_true, if_false, hls]
        constructor
        · rintro k rfl
          simp [tapeSys, tapePop, tapePopU, encU]
        · rintro e2 rfl
          constructor
          · intro hcls
            rcases e2 <;>
              first
                | exact absurd hcls (by decide)
                | simp [tapeSys, tapePop, tapePopU, encU, ENOTFOUND]
          · intro hcls
            have he2 : e2 = .ENOENT ∨ e2 = .ENOTDIR ∨ e2 = .EACCES := by
              rcases e2 <;> simp_all [ENOTFOUND]
            rcases he2 with rfl | rfl | rfl <;>
            · constructor
              · rintro e rfl
                rcases e <;>
                  simp [tapeSys, tapePop, tapePopU, encU, ENOTFOUND,
                    mbox_handle_errors, ENOACCESS, ENOSPACE]
              · rintro rfl
                cases hidx : mbox_get_index_dir he ffa st
                    (if strcaseEq oldname0 "INBOX" then "INBOX"
                     else oldname0) with
                | none =>
                  simp [tapeSys, tapePop, tapePopU, encU, hidx, ENOTFOUND]
                | some oi =>
                  refine ⟨?_, Or.inr ⟨oi, rfl, ?_, ?_⟩⟩
                  · cases uir with
                    | none =>
                      simp [tapeSys, tapePop, tapePopU, encU, hidx, ENOTFOUND]
                    | some e3 =>
                      simp [tapeSys, tapePop, tapePopU, encU, hidx, ENOTFOUND]
                  · cases uir with
                    | none =>
                      simp [tapeSys, tapePop, tapePopU, encU, hidx, ENOTFOUND]
                    | some e3 =>
                      simp [tapeSys, tapePop, tapePopU, encU, hidx, ENOTFOUND]
                  · rintro e rfl
                    simp [tapeSys, tapePop, tapePopU, encU, hidx, ENOTFOUND]

/-- C2 witness: concrete handle; a failed unlink yields failure with no index
mutation, and a storage rename reached through the EACCES lstat fall-through,
with a failing index rename, still returns success with the critical error
recorded. -/
theorem mbox_delete_rename_ordering_witness :
    (mbox_delete_mailbox tapeSys id false ⟨"/m", "/m/inbox", some "/m", '/'⟩
        "a" (.ok .fileK :: encU (some .EACCES) :: encU none :: [])).ok =
      false ∧
    (mbox_delete_mailbox tapeSys id false ⟨"/m", "/m/inbox", some "/m", '/'⟩
        "a" (.ok .fileK :: encU (some .EACCES) :: encU none :: [])).tr =
      [.lstatE "/m/a", .unlinkE "/m/a"] ∧
    (mbox_rename_mailbox tapeSys id false ⟨"/m", "/m/inbox", some "/m", '/'⟩
        "a" "b"
        (encU none :: .error .EACCES :: encU none :: encU (some .EOTHER) ::
          [])).ok = true ∧
    (mbox_rename_mailbox tapeSys id false ⟨"/m", "/m/inbox", some "/m", '/'⟩
        "a" "b"
        (encU none :: .error .EACCES :: encU none :: encU (some .EOTHER) ::
          [])).err = some (.critical "rename index") := by
  have hd := (mbox_delete_rename_ordering.1 id false
    ⟨"/m", "/m/inbox", some "/m", '/'⟩ "a" (some .EACCES) none []
    (by decide) (by decide)).1 .EACCES rfl
  have hr := ((((mbox_delete_rename_ordering.2 id false
    ⟨"/m", "/m/inbox", some "/m", '/'⟩ "a" "b" none none (some .EOTHER)
    (.error .EACCES) []).2 (by decide)).1
    (⟨['/', 'm'], ['b']⟩ : List Char × List Char) (by rfl)).2 rfl).2
    .EACCES rfl
  have hr2 := (hr.2 (by decide)).2 rfl
  refine ⟨hd.1, hd.2.trans (by rfl), hr2.1, ?_⟩
  rcases hr2.2 with ⟨hnone, _⟩ | ⟨oi, hoi, _, herr⟩
  · exact absurd hnone (by decide)
  · exact herr .EOTHER rfl

end Mbox
